import Mathlib

/-!
Verification of the cache freshness and synchronization engine of the
tella-raycast-extension repository, shallowly embedded in Lean 4.

Conventions of the embedding:
* Timestamps and ages are `Int` milliseconds (JS `Date.now()` arithmetic can
  produce negative ages under clock skew).
* The ambient reads the source performs (`Date.now()`, `getPreferenceValues`)
  are threaded as explicit arguments (`now`, `duration`, a preference lookup).
* JS `Record<string, T>` objects are modelled as association lists
  `List (String × T)`; JS object spread `\x7b...a, ...b\x7d` is `spreadMerge`.
* `async` code is sequentialized; a `try/catch` that swallows an error becomes
  a total function (no `Except` in the result), and fallible collaborators
  (network fetches, preference lookup) are passed in as `Except`-valued oracles.
-/

namespace Tella

/-- From `src/utils.ts`: `CACHE_FRESH_THRESHOLD_MS = 5 * 60 * 1000`. -/
def CACHE_FRESH_THRESHOLD_MS : Int := 5 * 60 * 1000

/-- From `src/utils.ts`: `FETCH_CONCURRENCY = 5`. -/
def FETCH_CONCURRENCY : Nat := 5

/-- JS `parseInt(s, 10)` restricted to what the cache code feeds it:
`some n` on a string of decimal digits, `none` standing for `NaN`. -/
def jsParseNat (s : String) : Option Nat :=
  if s.data.length ≠ 0 ∧ s.data.all Char.isDigit then
    some (s.data.foldl (fun n c => n * 10 + (c.toNat - 48)) 0)
  else none

/-- From `src/cache.ts` `getCacheDuration`: the preference lookup either
throws (`Except.error`, caught and defaulted to 30) or yields the optional
`cacheDuration` string; `cacheDuration || "30"` replaces an absent or empty
string by `"30"` before `parseInt`. `none` in the result stands for `NaN`. -/
def getCacheDuration (lookup : Except Unit (Option String)) : Option Nat :=
  match lookup with
  | Except.error _ => some 30
  | Except.ok pref =>
      let s := match pref with
        | none => "30"
        | some s => if s.length = 0 then "30" else s
      jsParseNat s

/-- Modelled from the spec: the `cacheDuration` preference is an enumerated
dropdown whose recognized values are 5, 30, 60 and 0 minutes (the dropdown
itself is declared in the extension manifest, which is not under `src/`). -/
def configuredDurations : List Nat := [5, 30, 60, 0]

/-- From `src/cache.ts` `isCacheFresh`, with `Date.now()` and the configured
duration threaded explicitly; the age is `now - fetchedAt`. -/
def isCacheFresh (duration : Nat) (now fetchedAt : Int) : Bool :=
  if duration = 0 then false -- Manual only mode
  else
    let age := now - fetchedAt
    decide (age < CACHE_FRESH_THRESHOLD_MS)

/-- From `src/cache.ts` `isCacheStale`. -/
def isCacheStale (duration : Nat) (now fetchedAt : Int) : Bool :=
  if duration = 0 then false -- Manual only mode
  else
    let age := now - fetchedAt
    let maxAge : Int := (duration : Int) * 60 * 1000
    decide (CACHE_FRESH_THRESHOLD_MS ≤ age ∧ age < maxAge)

/-- From `src/cache.ts` `isCacheExpired`. -/
def isCacheExpired (duration : Nat) (now fetchedAt : Int) : Bool :=
  if duration = 0 then false -- Manual only mode - never auto-expire
  else
    let age := now - fetchedAt
    let maxAge : Int := (duration : Int) * 60 * 1000
    decide (maxAge ≤ age)

/-- Transcript status from `src/types.ts`: `"ready" | "processing" | "failed"`. -/
inductive TStatus where
  | ready
  | processing
  | failed
deriving DecidableEq, Repr

/-- `TranscriptSentence` from `src/types.ts` (seconds kept as integers). -/
structure TranscriptSentence where
  text : String
  startSeconds : Int
  endSeconds : Int
deriving DecidableEq, Repr

/-- `Transcript` from `src/types.ts`, restricted to the fields the cache and
search code reads. -/
structure Transcript where
  status : TStatus
  text : String
  sentences : List TranscriptSentence
deriving DecidableEq, Repr

/-- The slice of `Video` from `src/types.ts` the cache layer reads. -/
structure Video where
  id : String
  name : String
deriving DecidableEq, Repr

/-- `CachedTranscript` from `src/cache.ts`. -/
structure CachedTranscript where
  status : TStatus
  text : String
  videoName : String
  sentences : List TranscriptSentence
deriving DecidableEq, Repr

/-- `TranscriptCache` from `src/cache.ts`; the JS
`Record<string, CachedTranscript>` keyed by video id is an association list. -/
structure TranscriptCache where
  transcripts : List (String × CachedTranscript)
  fetchedAt : Int
deriving DecidableEq, Repr

/-- `VideoCache` from `src/cache.ts` (the JSON string round-trip through
`LocalStorage` is abstracted away: the store maps keys to parsed entries). -/
structure VideoCache where
  videos : List Video
  fetchedAt : Int
  playlistId : Option String
deriving DecidableEq, Repr

/-- `VideoWithTranscript` from `src/search-transcripts.tsx`. -/
structure VideoWithTranscript where
  video : Video
  transcript : Option Transcript
deriving DecidableEq, Repr

/-- One item of `fetchTranscripts`' batch (`src/search-transcripts.tsx`): the
`getVideo` call is the oracle `fetch`; a throw is caught and yields a
`none` transcript (`// Silently skip failed fetches`). -/
def fetchOne (fetch : String → Except Unit (Option Transcript)) (video : Video) :
    VideoWithTranscript :=
  match fetch video.id with
  | Except.ok t => ⟨video, t⟩
  | Except.error _ => ⟨video, none⟩

/-- The `newTranscripts[video.id] = ...` write of `fetchTranscripts`: an entry
is produced only when the fetched transcript exists and its status is
`ready`. -/
def readyEntry (fetch : String → Except Unit (Option Transcript)) (video : Video) :
    Option (String × CachedTranscript) :=
  match fetch video.id with
  | Except.ok (some t) =>
      if t.status = TStatus.ready then
        some (video.id, ⟨t.status, t.text, video.name, t.sentences⟩)
      else none
  | _ => none

/-- The batch loop of `fetchTranscripts` (`for (let i = 0; i < videos.length;
i += concurrency)`), with batch size `k + 1`: each round processes one batch
and recurses on the remainder.  `Promise.allSettled` with the per-item catch
means every batch item yields a fulfilled result, sequentialized here in
batch order. -/
def fetchGo (fetch : String → Except Unit (Option Transcript)) (k : Nat) :
    List Video → List VideoWithTranscript × List (String × CachedTranscript)
  | [] => ([], [])
  | v :: vs =>
      let batch := v :: vs.take k
      let rest := fetchGo fetch k (vs.drop k)
      (batch.map (fetchOne fetch) ++ rest.1, batch.filterMap (readyEntry fetch) ++ rest.2)
termination_by vs => vs.length
decreasing_by simp [List.length_drop]; omega

/-- `fetchTranscripts` from `src/search-transcripts.tsx`: processes `videos`
in sequential batches of size `concurrency`, returning the per-video results
and the `ready`-only merge payload.  With `concurrency = 0` the source's loop
never advances (it does not terminate); the embedding returns the empty
result there and every theorem assumes a positive concurrency. -/
def fetchTranscripts (fetch : String → Except Unit (Option Transcript))
    (videos : List Video) (concurrency : Nat) :
    List VideoWithTranscript × List (String × CachedTranscript) :=
  if concurrency = 0 then ([], [])
  else fetchGo fetch (concurrency - 1) videos

/-- JS object spread `\x7b...old, ...new\x7d`: keys of `old` keep their
position with values overridden by `new` on collision; keys only in `new` are
appended in `new`'s order. -/
def spreadMerge (old new : List (String × CachedTranscript)) :
    List (String × CachedTranscript) :=
  old.map (fun p =>
    match new.lookup p.1 with
    | some v => (p.1, v)
    | none => p)
  ++ new.filter (fun p => (old.lookup p.1).isNone)

/-- `existing?.transcripts || \x7b\x7d` in `addTranscriptsToCache`. -/
def existingTranscripts : Option TranscriptCache → List (String × CachedTranscript)
  | some c => c.transcripts
  | none => []

/-- `addTranscriptsToCache` from `src/cache.ts` (success path of its
try/catch): spreads the existing persisted map under the new entries and
stamps `fetchedAt` with the current time. -/
def addTranscriptsToCache (now : Int) (existing : Option TranscriptCache)
    (newTranscripts : List (String × CachedTranscript)) : TranscriptCache :=
  { transcripts := spreadMerge (existingTranscripts existing) newTranscripts,
    fetchedAt := now }

/-- The `// Filter out deleted videos from cache` loop of `loadTranscripts`
(`src/search-transcripts.tsx`): keeps only entries whose key is a current
video id. -/
def pruneTranscripts (videoIds : List String)
    (transcripts : List (String × CachedTranscript)) :
    List (String × CachedTranscript) :=
  transcripts.filter (fun p => videoIds.contains p.1)

/-- `videos.filter((v) => !cachedIds.has(v.id))` of `loadTranscripts`: the
fetch worklist. -/
def deltaWorklist (videos : List Video) (cachedIds : List String) : List Video :=
  videos.filter (fun v => !cachedIds.contains v.id)

/-- The effect of one `loadTranscripts` run (`forceRefresh = false`) on the
PERSISTED transcript cache: the prune is applied only to the in-memory copy
(`transcriptCache.transcripts = validTranscripts` is never written back), and
the only write is `addTranscriptsToCache`, which spreads the unpruned
persisted map under the newly fetched entries; with an empty video list, an
empty worklist or no new `ready` transcripts nothing is written. -/
def loadTranscriptsPersist (fetch : String → Except Unit (Option Transcript))
    (now : Int) (videos : List Video) (persisted : Option TranscriptCache) :
    Option TranscriptCache :=
  if videos.isEmpty then persisted
  else
    let pruned := pruneTranscripts (videos.map (·.id)) (existingTranscripts persisted)
    let videosToFetch := deltaWorklist videos (pruned.map Prod.fst)
    if videosToFetch.isEmpty then persisted
    else
      let fetched := fetchTranscripts fetch videosToFetch FETCH_CONCURRENCY
      if fetched.2.isEmpty then persisted
      else some (addTranscriptsToCache now persisted fetched.2)

/-- `getCacheKey` from `src/cache.ts`:
`` `${CACHE_KEY_PREFIX}-${playlistId || "all"}` `` — an absent or empty
playlist id maps to the `"all"` partition. -/
def getCacheKey (playlistId : Option String) : String :=
  "tella-videos-cache-" ++
    (match playlistId with
     | none => "all"
     | some s => if s.length = 0 then "all" else s)

/-- `setVideoCache` from `src/cache.ts` (success path): overwrites the entry
at the partition's key, stamping `fetchedAt := now` and
`playlistId := playlistId || null`. -/
def setVideoCache (store : String → Option VideoCache) (videos : List Video)
    (playlistId : Option String) (now : Int) : String → Option VideoCache :=
  fun key =>
    if key = getCacheKey playlistId then
      some { videos := videos, fetchedAt := now,
             playlistId :=
               match playlistId with
               | none => none
               | some s => if s.length = 0 then none else some s }
    else store key

/-- `getVideoCache` from `src/cache.ts`: reads the partition's key (corrupt
or absent entries are already `none` in the store model). -/
def getVideoCache (store : String → Option VideoCache) (playlistId : Option String) :
    Option VideoCache :=
  store (getCacheKey playlistId)

/-- Consumer-visible outcome of `loadVideos` (`src/browse-videos.tsx`),
collapsing the React state updates to the final state. -/
structure LoadState where
  videos : List Video
  usePagination : Bool
  isLoading : Bool
deriving DecidableEq, Repr

/-- `loadVideos` from `src/browse-videos.tsx`: cached data is shown
immediately; an expired or stale entry triggers a background refresh whose
failure is swallowed (`// Silently fail - keep showing cached data`); a cache
miss fetches synchronously and on failure switches to fallback pagination
(`// Fall back to pagination mode`) — every failure is caught, so no
exception reaches the consumer and the function is total. -/
def loadVideos (duration : Nat) (now : Int) (cache : Option VideoCache)
    (fetchResult : Except Unit (List Video)) : LoadState :=
  match cache with
  | some c =>
      if isCacheExpired duration now c.fetchedAt then
        match fetchResult with
        | Except.ok refreshed => ⟨refreshed, false, false⟩
        | Except.error _ => ⟨c.videos, false, false⟩
      else if isCacheStale duration now c.fetchedAt then
        match fetchResult with
        | Except.ok refreshed => ⟨refreshed, false, false⟩
        | Except.error _ => ⟨c.videos, false, false⟩
      else ⟨c.videos, false, false⟩
  | none =>
      match fetchResult with
      | Except.ok allVideos => ⟨allVideos, false, false⟩
      | Except.error _ => ⟨[], true, false⟩

/-- The `setPaginatedVideos` updater of the fallback pagination hook
(`src/browse-videos.tsx`): no cursor replaces the accumulated list with the
fresh first page; with a cursor the new page is appended after dropping
videos whose id already appears in the accumulated list. -/
def paginationUpdate (prev : List Video) (cursor : Option String)
    (newVideos : List Video) : List Video :=
  match cursor with
  | none => newVideos
  | some _ =>
      prev ++ newVideos.filter (fun v => !((prev.map (·.id)).contains v.id))

/-- Response model for the retry wrapper: HTTP status and the parsed
`Retry-After` header (`none` when absent). -/
structure HttpResponse where
  status : Nat
  retryAfter : Option Nat
deriving DecidableEq, Repr

/-- `res.ok` of the Fetch API: status in the 200–299 range. -/
def respOk (r : HttpResponse) : Bool :=
  decide (200 ≤ r.status ∧ r.status < 300)

/-- The wait computation of `tellaFetch`:
`Number(res.headers.get("Retry-After") || 0)` then
`retryAfter ? retryAfter * 1000 : 500 * Math.pow(2, attempt)`. -/
def backoffWait (retryAfter : Option Nat) (attempt : Nat) : Nat :=
  let ra := retryAfter.getD 0
  if ra ≠ 0 then ra * 1000 else 500 * 2 ^ attempt

/-- `tellaFetch` from the API client (`src/api.ts`, concatenated into the
provided `cache.ts` source file): `responses n` is the response the `n`-th
attempt receives.  Returns the list of waits performed (ms) and the outcome;
`Except.error status` models the thrown `Error`.  On a 429 it always waits,
then retries only while `attempt < 3`; a 429 at attempt 3 falls through to
the `!res.ok` throw. -/
def tellaFetch (responses : Nat → HttpResponse) (attempt : Nat) :
    List Nat × Except Nat Unit :=
  let res := responses attempt
  if res.status = 429 then
    let w := backoffWait res.retryAfter attempt
    if h : attempt < 3 then
      let rest := tellaFetch responses (attempt + 1)
      (w :: rest.1, rest.2)
    else ([w], Except.error res.status)
  else if respOk res then ([], Except.ok ())
  else ([], Except.error res.status)
termination_by 3 - attempt
decreasing_by omega

/-- Concrete transcript for the C2 failing input. -/
def tNewCex : Transcript := ⟨TStatus.ready, "new text", []⟩

/-- Persisted entry of the deleted video `v2` (C2 failing input). -/
def oldEntryCex : CachedTranscript := ⟨TStatus.ready, "old text", "Old Video", []⟩

/-- Entry fetched for `v1` (C2 failing input). -/
def newEntryCex : CachedTranscript := ⟨TStatus.ready, "new text", "Video One", []⟩

/-- Fetch oracle of the C2 failing input: `v1` has a ready transcript, any
other id errors. -/
def fetchCex : String → Except Unit (Option Transcript) :=
  fun id => if id = "v1" then Except.ok (some tNewCex) else Except.error ()

/-- Current video collection of the C2 failing input: only `v1`. -/
def videosCex : List Video := [⟨"v1", "Video One"⟩]

/-- Persisted transcript cache of the C2 failing input: holds the deleted
video `v2`. -/
def persistedCex : Option TranscriptCache := some ⟨[("v2", oldEntryCex)], 0⟩

/-- All-429 response schedule for the C6 witness. -/
def resp429 : Nat → HttpResponse := fun _ => ⟨429, none⟩

/-- Two-video worklist for the C5 witness: the fetch of `vX` fails under
`fetchCex`. -/
def videosCex2 : List Video := [⟨"v1", "Video One"⟩, ⟨"vX", "Other"⟩]

end Tella

namespace Tella

/-- C3 counterexample: with duration 0 an entry of age 0 (younger than the
5-minute threshold) does NOT classify as fresh — `isCacheFresh` returns
`false` unconditionally in manual-only mode, so the claim that `fresh` is
never forced false by `D = 0` is refuted at this concrete input. -/
theorem manualMode_forces_fresh_false_cex : isCacheFresh 0 0 0 = false := by
  rfl

/-- C3 (amended): when the configured duration is 0 (manual-refresh-only
mode), `stale` and `expired` are false for every age, and `fresh` is ALSO
always false — the code's manual mode forces all three classifications
false, it does not leave `fresh` age-based. -/
theorem manualMode_classification (now fetchedAt : Int) :
    isCacheFresh 0 now fetchedAt = false ∧
    isCacheStale 0 now fetchedAt = false ∧
    isCacheExpired 0 now fetchedAt = false := by
  refine ⟨rfl, rfl, rfl⟩

/-- C4: for every configured duration `D > 0` (the recognized configured
values being 5, 30 and 60 minutes) and every age `a = now - fetchedAt`
(possibly negative under clock skew): the entry is fresh iff `a` is below the
5-minute threshold (so a negative age is fresh), stale iff the threshold
`≤ a <` `D·60·1000` ms, expired iff `a ≥ D·60·1000` ms; the three
classifications are mutually exclusive and cover every age. -/
theorem freshness_trichotomy (D : Nat) (hD : D ∈ configuredDurations) (hpos : D ≠ 0)
    (now fetchedAt : Int) :
    (isCacheFresh D now fetchedAt = true ↔ now - fetchedAt < CACHE_FRESH_THRESHOLD_MS) ∧
    (isCacheStale D now fetchedAt = true ↔
      CACHE_FRESH_THRESHOLD_MS ≤ now - fetchedAt ∧ now - fetchedAt < (D : Int) * 60 * 1000) ∧
    (isCacheExpired D now fetchedAt = true ↔ (D : Int) * 60 * 1000 ≤ now - fetchedAt) ∧
    ¬(isCacheFresh D now fetchedAt = true ∧ isCacheStale D now fetchedAt = true) ∧
    ¬(isCacheFresh D now fetchedAt = true ∧ isCacheExpired D now fetchedAt = true) ∧
    ¬(isCacheStale D now fetchedAt = true ∧ isCacheExpired D now fetchedAt = true) ∧
    (isCacheFresh D now fetchedAt = true ∨ isCacheStale D now fetchedAt = true ∨
      isCacheExpired D now fetchedAt = true) := by
  have hfresh : isCacheFresh D now fetchedAt = true ↔
      now - fetchedAt < CACHE_FRESH_THRESHOLD_MS := by
    simp [isCacheFresh, hpos]
  have hstale : isCacheStale D now fetchedAt = true ↔
      CACHE_FRESH_THRESHOLD_MS ≤ now - fetchedAt ∧
        now - fetchedAt < (D : Int) * 60 * 1000 := by
    simp [isCacheStale, hpos]
  have hexp : isCacheExpired D now fetchedAt = true ↔
      (D : Int) * 60 * 1000 ≤ now - fetchedAt := by
    simp [isCacheExpired, hpos]
  have hthr : CACHE_FRESH_THRESHOLD_MS ≤ (D : Int) * 60 * 1000 := by
    simp only [configuredDurations, List.mem_cons, List.not_mem_nil, or_false] at hD
    rcases hD with h | h | h | h <;> subst h
    · decide
    · decide
    · decide
    · exact absurd rfl hpos
  refine ⟨hfresh, hstale, hexp, ?_, ?_, ?_, ?_⟩
  · rw [hfresh, hstale]; omega
  · rw [hfresh, hexp]; omega
  · rw [hstale, hexp]; omega
  · rw [hfresh, hstale, hexp]; omega

/-- Witness for `freshness_trichotomy` at the configured duration 30 and a
concrete clock. -/
theorem freshness_trichotomy_witness :
    (isCacheFresh 30 1000 0 = true ↔ (1000 : Int) - 0 < CACHE_FRESH_THRESHOLD_MS) ∧
    (isCacheStale 30 1000 0 = true ↔
      CACHE_FRESH_THRESHOLD_MS ≤ (1000 : Int) - 0 ∧
        (1000 : Int) - 0 < ((30 : Nat) : Int) * 60 * 1000) ∧
    (isCacheExpired 30 1000 0 = true ↔ ((30 : Nat) : Int) * 60 * 1000 ≤ (1000 : Int) - 0) ∧
    ¬(isCacheFresh 30 1000 0 = true ∧ isCacheStale 30 1000 0 = true) ∧
    ¬(isCacheFresh 30 1000 0 = true ∧ isCacheExpired 30 1000 0 = true) ∧
    ¬(isCacheStale 30 1000 0 = true ∧ isCacheExpired 30 1000 0 = true) ∧
    (isCacheFresh 30 1000 0 = true ∨ isCacheStale 30 1000 0 = true ∨
      isCacheExpired 30 1000 0 = true) :=
  freshness_trichotomy 30 (by decide) (by decide) 1000 0

/-- C10: if the `cacheDuration` preference is absent, or the preference
lookup throws, the policy uses 30 minutes: entries classify stale from the
5-minute threshold up to 30 minutes of age and expired from 30 minutes on,
and the behaviour differs from the manual-only `D = 0` mode (which never
classifies stale). -/
theorem default_duration_thirty (lookup : Except Unit (Option String))
    (h : lookup = Except.ok none ∨ lookup = Except.error ()) (now fetchedAt : Int) :
    getCacheDuration lookup = some 30 ∧
    (isCacheStale 30 now fetchedAt = true ↔
      CACHE_FRESH_THRESHOLD_MS ≤ now - fetchedAt ∧
        now - fetchedAt < (30 : Int) * 60 * 1000) ∧
    (isCacheExpired 30 now fetchedAt = true ↔ (30 : Int) * 60 * 1000 ≤ now - fetchedAt) ∧
    isCacheStale 30 (5 * 60 * 1000) 0 = true ∧
    isCacheStale 0 (5 * 60 * 1000) 0 = false := by
  refine ⟨?_, ?_, ?_, by decide, rfl⟩
  · rcases h with h | h <;> subst h <;> rfl
  · simp [isCacheStale]
  · simp [isCacheExpired]

/-- Helper: the batched traversal equals the straight traversal — the output
of `fetchGo` does not depend on the batch size. -/
theorem fetchGo_eq (fetch : String → Except Unit (Option Transcript)) (k : Nat)
    (videos : List Video) :
    fetchGo fetch k videos =
      (videos.map (fetchOne fetch), videos.filterMap (readyEntry fetch)) := by
  suffices h : ∀ (n : Nat) (l : List Video), l.length ≤ n →
      fetchGo fetch k l = (l.map (fetchOne fetch), l.filterMap (readyEntry fetch)) from
    h videos.length videos le_rfl
  intro n
  induction n with
  | zero =>
      intro l hl
      have : l = [] := List.eq_nil_of_length_eq_zero (Nat.le_zero.mp hl)
      subst this
      simp [fetchGo]
  | succ n ih =>
      intro l hl
      match l with
      | [] => simp [fetchGo]
      | v :: vs =>
          have hd : (vs.drop k).length ≤ n := by
            simp only [List.length_cons] at hl
            simp only [List.length_drop]
            omega
          have hsplit : (v :: vs.take k) ++ vs.drop k = v :: vs := by
            simp [List.take_append_drop]
          simp only [fetchGo, ih (vs.drop k) hd]
          rw [← hsplit, List.map_append, List.filterMap_append]

/-- Helper: for a positive concurrency, `fetchTranscripts` yields one result
per input video (in order) and one merge-payload entry per ready fetch. -/
theorem fetchTranscripts_eq (fetch : String → Except Unit (Option Transcript))
    (videos : List Video) (c : Nat) (hc : 0 < c) :
    fetchTranscripts fetch videos c =
      (videos.map (fetchOne fetch), videos.filterMap (readyEntry fetch)) := by
  rw [fetchTranscripts, if_neg (Nat.pos_iff_ne_zero.mp hc), fetchGo_eq]

/-- C1: the transcript fetch worklist computed by `loadTranscripts` is
exactly the set difference `A − B`, where `A` is the current video id set and
`B` is the cached id set after pruning: an id is in the worklist iff it is in
`A` and not in `B`, a membership statement independent of any iteration
order. -/
theorem delta_exact (videos : List Video) (cached : List (String × CachedTranscript)) :
    ∀ id : String,
      id ∈ (deltaWorklist videos
              ((pruneTranscripts (videos.map (·.id)) cached).map Prod.fst)).map (·.id) ↔
        (id ∈ videos.map (·.id) ∧
          id ∉ (pruneTranscripts (videos.map (·.id)) cached).map Prod.fst) := by
  intro id
  constructor
  · rintro hmem
    rw [List.mem_map] at hmem
    obtain ⟨v, hv, hid⟩ := hmem
    rw [deltaWorklist, List.mem_filter] at hv
    obtain ⟨hvmem, hpred⟩ := hv
    subst hid
    refine ⟨List.mem_map_of_mem _ hvmem, ?_⟩
    intro hin
    rw [Bool.not_eq_true'] at hpred
    have hct : ((pruneTranscripts (videos.map (·.id)) cached).map Prod.fst).contains v.id =
        true := List.elem_iff.mpr hin
    rw [hpred] at hct
    cases hct
  · rintro ⟨hA, hB⟩
    rw [List.mem_map] at hA
    obtain ⟨v, hv, hid⟩ := hA
    rw [List.mem_map]
    refine ⟨v, ?_, hid⟩
    rw [deltaWorklist, List.mem_filter]
    refine ⟨hv, ?_⟩
    subst hid
    rw [Bool.not_eq_true']
    cases hcb : ((pruneTranscripts (videos.map (·.id)) cached).map Prod.fst).contains v.id
    · rfl
    · exact absurd (List.elem_iff.mp hcb) hB

/-- C5: for every positive concurrency (default 5) the batch fetch processes
the worklist in sequential batches of that size (first batch, then the rest),
produces one result per input video in order — a failed item yields a
null-transcript result and aborts neither its siblings nor the operation —
and only `ready` results enter the merge payload: every payload entry has
status `ready` and comes from a `ready` fetch, and an id whose fetch failed,
returned no transcript, or returned a non-`ready` one is absent from the
payload. -/
theorem batch_fetch_isolation (fetch : String → Except Unit (Option Transcript))
    (videos : List Video) (c : Nat) (hc : 0 < c) :
    (fetchTranscripts fetch videos c =
      ((videos.take c).map (fetchOne fetch) ++ (fetchTranscripts fetch (videos.drop c) c).1,
       (videos.take c).filterMap (readyEntry fetch) ++ (fetchTranscripts fetch (videos.drop c) c).2)) ∧
    ((fetchTranscripts fetch videos c).1.map (·.video) = videos) ∧
    (∀ v ∈ videos, fetch v.id = Except.error () →
      ⟨v, none⟩ ∈ (fetchTranscripts fetch videos c).1) ∧
    (∀ p ∈ (fetchTranscripts fetch videos c).2, p.2.status = TStatus.ready) ∧
    (∀ v ∈ videos, ∀ t, fetch v.id = Except.ok (some t) → t.status = TStatus.ready →
      (v.id, (⟨t.status, t.text, v.name, t.sentences⟩ : CachedTranscript)) ∈
        (fetchTranscripts fetch videos c).2) ∧
    (∀ id : String, (∀ t, fetch id = Except.ok (some t) → t.status ≠ TStatus.ready) →
      id ∉ (fetchTranscripts fetch videos c).2.map Prod.fst) := by
  refine ⟨?_, ?_, ?_, ?_, ?_, ?_⟩
  · rw [fetchTranscripts_eq fetch videos c hc,
      fetchTranscripts_eq fetch (videos.drop c) c hc,
      ← List.map_append, ← List.filterMap_append, List.take_append_drop]
  · rw [fetchTranscripts_eq fetch videos c hc]
    simp only [List.map_map]
    have : (fun x => (fetchOne fetch x).video) = (id : Video → Video) := by
      funext v
      simp only [fetchOne, id]
      cases fetch v.id <;> rfl
    rw [Function.comp_def, this, List.map_id]
  · intro v hv herr
    rw [fetchTranscripts_eq fetch videos c hc]
    have : fetchOne fetch v = ⟨v, none⟩ := by rw [fetchOne, herr]
    simpa [← this] using List.mem_map_of_mem (fetchOne fetch) hv
  · intro p hp
    rw [fetchTranscripts_eq fetch videos c hc] at hp
    rw [List.mem_filterMap] at hp
    obtain ⟨v, _, hentry⟩ := hp
    rcases hfv : fetch v.id with e | t
    · simp [readyEntry, hfv] at hentry
    · rcases t with _ | t
      · simp [readyEntry, hfv] at hentry
      · by_cases hst : t.status = TStatus.ready
        · simp only [readyEntry, hfv, hst, if_pos, Option.some.injEq] at hentry
          subst hentry
          rfl
        · simp [readyEntry, hfv, hst] at hentry
  · intro v hv t hfv hst
    rw [fetchTranscripts_eq fetch videos c hc, List.mem_filterMap]
    refine ⟨v, hv, ?_⟩
    simp [readyEntry, hfv, hst]
  · intro id hnone hmem
    rw [fetchTranscripts_eq fetch videos c hc, List.mem_map] at hmem
    obtain ⟨p, hp, hid⟩ := hmem
    rw [List.mem_filterMap] at hp
    obtain ⟨v, _, hentry⟩ := hp
    rcases hfv : fetch v.id with e | t
    · simp [readyEntry, hfv] at hentry
    · rcases t with _ | t
      · simp [readyEntry, hfv] at hentry
      · by_cases hst : t.status = TStatus.ready
        · simp only [readyEntry, hfv, hst, if_pos, Option.some.injEq] at hentry
          subst hentry
          have hvid : v.id = id := hid
          exact hnone t (hvid ▸ hfv) hst
        · simp [readyEntry, hfv, hst] at hentry

/-- Witness for `batch_fetch_isolation`: a two-video worklist at the default
concurrency 5, where the second video's fetch fails. -/
theorem batch_fetch_isolation_witness :
    (fetchTranscripts fetchCex videosCex2 FETCH_CONCURRENCY =
      ((videosCex2.take FETCH_CONCURRENCY).map (fetchOne fetchCex) ++
        (fetchTranscripts fetchCex (videosCex2.drop FETCH_CONCURRENCY) FETCH_CONCURRENCY).1,
       (videosCex2.take FETCH_CONCURRENCY).filterMap (readyEntry fetchCex) ++
        (fetchTranscripts fetchCex (videosCex2.drop FETCH_CONCURRENCY) FETCH_CONCURRENCY).2)) ∧
    ((fetchTranscripts fetchCex videosCex2 FETCH_CONCURRENCY).1.map (·.video) = videosCex2) ∧
    (∀ v ∈ videosCex2, fetchCex v.id = Except.error () →
      ⟨v, none⟩ ∈ (fetchTranscripts fetchCex videosCex2 FETCH_CONCURRENCY).1) ∧
    (∀ p ∈ (fetchTranscripts fetchCex videosCex2 FETCH_CONCURRENCY).2,
      p.2.status = TStatus.ready) ∧
    (∀ v ∈ videosCex2, ∀ t, fetchCex v.id = Except.ok (some t) → t.status = TStatus.ready →
      (v.id, (⟨t.status, t.text, v.name, t.sentences⟩ : CachedTranscript)) ∈
        (fetchTranscripts fetchCex videosCex2 FETCH_CONCURRENCY).2) ∧
    (∀ id : String, (∀ t, fetchCex id = Except.ok (some t) → t.status ≠ TStatus.ready) →
      id ∉ (fetchTranscripts fetchCex videosCex2 FETCH_CONCURRENCY).2.map Prod.fst) :=
  batch_fetch_isolation fetchCex videosCex2 FETCH_CONCURRENCY (by decide)

/-- C2: the prune is never persisted — running `loadTranscripts` against a
collection whose id set is `{v1}` while the persisted transcript cache still
holds an entry for the deleted video `v2` leaves `v2` in the persisted cache
after the load (`addTranscriptsToCache` spreads the unpruned persisted map),
refuting the claim that every persisted key corresponds to a current video
id. -/
theorem prune_not_persisted :
    loadTranscriptsPersist fetchCex 100 videosCex persistedCex =
      some ⟨[("v2", oldEntryCex), ("v1", newEntryCex)], 100⟩ ∧
    "v2" ∉ videosCex.map (·.id) ∧
    "v2" ∈ ([("v2", oldEntryCex), ("v1", newEntryCex)] :
      List (String × CachedTranscript)).map Prod.fst := by
  refine ⟨?_, by decide, by decide⟩
  have hft : fetchTranscripts fetchCex
      (deltaWorklist videosCex
        ((pruneTranscripts (videosCex.map (·.id)) (existingTranscripts persistedCex)).map
          Prod.fst)) FETCH_CONCURRENCY =
      ([⟨⟨"v1", "Video One"⟩, some tNewCex⟩], [("v1", newEntryCex)]) := by
    rw [fetchTranscripts_eq _ _ _ (by decide)]
    decide
  rw [loadTranscriptsPersist]
  simp only [hft]
  decide

/-- Helper: `lookup` distributes over append, first list first. -/
theorem lookup_append {β : Type} (l₁ l₂ : List (String × β)) (k : String) :
    (l₁ ++ l₂).lookup k = ((l₁.lookup k).or (l₂.lookup k)) := by
  induction l₁ with
  | nil => simp [List.lookup]
  | cons p l ih =>
      rcases p with ⟨a, b⟩
      cases hak : k == a <;> simp [List.lookup, hak, ih, Option.or_some, Option.none_or]

/-- Helper: looking up in the value-overridden copy of `old` finds the first
`old` entry, with its value replaced by `new`'s when `new` has the key. -/
theorem lookup_map_override (old new : List (String × CachedTranscript)) (k : String) :
    ((old.map (fun p =>
        match new.lookup p.1 with
        | some v => (p.1, v)
        | none => p)).lookup k) =
      ((old.lookup k).map (fun v₀ => (new.lookup k).getD v₀)) := by
  induction old with
  | nil => simp [List.lookup]
  | cons p l ih =>
      rcases p with ⟨a, b⟩
      by_cases hk : k = a
      · subst hk
        rcases hna : new.lookup k with _ | w <;>
          simp [List.lookup, hna]
      · have hak : (k == a) = false := beq_eq_false_iff_ne.mpr hk
        rcases hna : new.lookup a with _ | w <;>
          simp [List.lookup, hna, hak, ih]

/-- Helper: looking up in `new` filtered by "key absent from `old`" gives
`new`'s binding when the key is absent from `old` and nothing otherwise. -/
theorem lookup_filter_absent (old new : List (String × CachedTranscript)) (k : String) :
    ((new.filter (fun p => (old.lookup p.1).isNone)).lookup k) =
      (if (old.lookup k).isNone then new.lookup k else none) := by
  induction new with
  | nil => simp [List.lookup]
  | cons p l ih =>
      rcases p with ⟨a, b⟩
      by_cases hk : k = a
      · subst hk
        cases hoa : (old.lookup k).isNone <;>
          simp [List.filter, List.lookup, hoa, ih]
      · have hak : (k == a) = false := beq_eq_false_iff_ne.mpr hk
        cases hoa : (old.lookup a).isNone <;>
          simp [List.filter, List.lookup, hoa, hak, ih]

/-- Helper: JS object spread is the right-biased union at the lookup level. -/
theorem spreadMerge_lookup (old new : List (String × CachedTranscript)) (k : String) :
    (spreadMerge old new).lookup k = ((new.lookup k).or (old.lookup k)) := by
  rw [spreadMerge, lookup_append, lookup_map_override, lookup_filter_absent]
  rcases h : old.lookup k with _ | v₀ <;> rcases hn : new.lookup k with _ | w <;>
    simp [h, hn]

/-- Helper: a key is among an association list's keys iff its lookup hits. -/
theorem lookup_isSome_iff {β : Type} (l : List (String × β)) (k : String) :
    (l.lookup k).isSome = true ↔ k ∈ l.map Prod.fst := by
  induction l with
  | nil => simp [List.lookup]
  | cons p l ih =>
      rcases p with ⟨a, b⟩
      by_cases hk : k = a
      · subst hk
        simp [List.lookup]
      · have hak : (k == a) = false := beq_eq_false_iff_ne.mpr hk
        simp [List.lookup, hak, ih, hk]

/-- C7: `addTranscriptsToCache` computes the right-biased union of the
existing cached map with the new entries — every previously cached key is
still present, a new entry wins on key collision, a key untouched by the new
entries keeps its old binding (so no existing key is removed) — and the
top-level `fetchedAt` is refreshed to the merge time. -/
theorem merge_additive_union (now : Int) (existing : Option TranscriptCache)
    (newTranscripts : List (String × CachedTranscript)) :
    ((addTranscriptsToCache now existing newTranscripts).fetchedAt = now) ∧
    (∀ k, k ∈ (existingTranscripts existing).map Prod.fst →
      k ∈ (addTranscriptsToCache now existing newTranscripts).transcripts.map Prod.fst) ∧
    (∀ k v, newTranscripts.lookup k = some v →
      (addTranscriptsToCache now existing newTranscripts).transcripts.lookup k = some v) ∧
    (∀ k, newTranscripts.lookup k = none →
      (addTranscriptsToCache now existing newTranscripts).transcripts.lookup k =
        (existingTranscripts existing).lookup k) := by
  refine ⟨rfl, ?_, ?_, ?_⟩
  · intro k hk
    rw [← lookup_isSome_iff] at hk ⊢
    show ((spreadMerge (existingTranscripts existing) newTranscripts).lookup k).isSome = true
    rw [spreadMerge_lookup]
    rcases hn : newTranscripts.lookup k with _ | w
    · simpa [hn, Option.none_or] using hk
    · simp [hn, Option.or_some]
  · intro k v h
    show (spreadMerge (existingTranscripts existing) newTranscripts).lookup k = some v
    rw [spreadMerge_lookup, h]
    rfl
  · intro k h
    show (spreadMerge (existingTranscripts existing) newTranscripts).lookup k = _
    rw [spreadMerge_lookup, h]
    rfl

/-- Witness for `merge_additive_union`: merging a new `v1` entry over the
persisted cache that holds `v2`. -/
theorem merge_additive_union_witness :
    ((addTranscriptsToCache 7 persistedCex [("v1", newEntryCex)]).fetchedAt = 7) ∧
    "v2" ∈ (addTranscriptsToCache 7 persistedCex [("v1", newEntryCex)]).transcripts.map
      Prod.fst ∧
    (addTranscriptsToCache 7 persistedCex [("v1", newEntryCex)]).transcripts.lookup "v1" =
      some newEntryCex ∧
    (addTranscriptsToCache 7 persistedCex [("v1", newEntryCex)]).transcripts.lookup "v2" =
      (existingTranscripts persistedCex).lookup "v2" := by
  obtain ⟨h1, h2, h3, h4⟩ := merge_additive_union 7 persistedCex [("v1", newEntryCex)]
  exact ⟨h1, h2 "v2" (by decide), h3 "v1" newEntryCex (by decide), h4 "v2" (by decide)⟩

/-- C6: a 429 response makes `tellaFetch` wait the server-provided
`Retry-After` seconds (in ms) or, absent that header, an exponential backoff
of `500 · 2^attempt` ms, then retry while fewer than 3 retries have happened;
a 429 on the third retry (attempt 3) stops retrying and propagates the error
to the caller, so an all-429 server yields exactly the waits
500, 1000, 2000, 4000 ms and a final fetch failure. -/
theorem rate_limit_retry (responses : Nat → HttpResponse) :
    (∀ ra, ra ≠ 0 → ∀ attempt, backoffWait (some ra) attempt = ra * 1000) ∧
    (∀ attempt, backoffWait none attempt = 500 * 2 ^ attempt) ∧
    (∀ attempt, attempt < 3 → (responses attempt).status = 429 →
      tellaFetch responses attempt =
        (backoffWait (responses attempt).retryAfter attempt ::
            (tellaFetch responses (attempt + 1)).1,
          (tellaFetch responses (attempt + 1)).2)) ∧
    ((responses 3).status = 429 →
      tellaFetch responses 3 =
        ([backoffWait (responses 3).retryAfter 3], Except.error 429)) ∧
    ((∀ n, n ≤ 3 → (responses n).status = 429 ∧ (responses n).retryAfter = none) →
      tellaFetch responses 0 = ([500, 1000, 2000, 4000], Except.error 429)) := by
  have hstep : ∀ attempt, attempt < 3 → (responses attempt).status = 429 →
      tellaFetch responses attempt =
        (backoffWait (responses attempt).retryAfter attempt ::
            (tellaFetch responses (attempt + 1)).1,
          (tellaFetch responses (attempt + 1)).2) := by
    intro attempt ha h429
    rw [tellaFetch]
    simp only [h429, if_pos, dif_pos ha]
  have hstop : (responses 3).status = 429 →
      tellaFetch responses 3 =
        ([backoffWait (responses 3).retryAfter 3], Except.error 429) := by
    intro h429
    rw [tellaFetch]
    simp only [h429, if_pos]
    rw [dif_neg (by omega)]
  refine ⟨?_, ?_, hstep, hstop, ?_⟩
  · intro ra hra attempt
    simp [backoffWait, hra]
  · intro attempt
    simp [backoffWait]
  · intro hall
    have e3 : tellaFetch responses 3 = ([4000], Except.error 429) := by
      rw [hstop (hall 3 (by omega)).1, (hall 3 (by omega)).2]
      rfl
    rw [hstep 0 (by omega) (hall 0 (by omega)).1,
      hstep 1 (by omega) (hall 1 (by omega)).1,
      hstep 2 (by omega) (hall 2 (by omega)).1, e3,
      (hall 0 (by omega)).2, (hall 1 (by omega)).2, (hall 2 (by omega)).2]
    rfl

/-- Witness for `rate_limit_retry`: the all-429 schedule with no
`Retry-After` header performs the doubling backoff and fails after the
capped retries. -/
theorem rate_limit_retry_witness :
    tellaFetch resp429 0 = ([500, 1000, 2000, 4000], Except.error 429) :=
  (rate_limit_retry resp429).2.2.2.2 (fun _ _ => ⟨rfl, rfl⟩)

/-- C8: a cache miss combined with a failed synchronous full fetch ends in
fallback pagination mode (`usePagination = true`, loading finished, no
exception reaching the consumer — the embedding is total because every
failure is caught); in fallback mode a page fetch without a cursor replaces
the accumulated list with the first page, and a page fetch with a cursor
appends the page minus the videos whose id is already accumulated: the
accumulated id set becomes the union and stays duplicate-free. -/
theorem fallback_pagination (duration : Nat) (now : Int) (prev page : List Video)
    (cur : String) (hprev : (prev.map (·.id)).Nodup) (hpage : (page.map (·.id)).Nodup) :
    (loadVideos duration now none (Except.error ()) =
      { videos := [], usePagination := true, isLoading := false }) ∧
    (paginationUpdate prev none page = page) ∧
    (∀ id, id ∈ (paginationUpdate prev (some cur) page).map (·.id) ↔
      id ∈ prev.map (·.id) ∨ id ∈ page.map (·.id)) ∧
    ((paginationUpdate prev (some cur) page).map (·.id)).Nodup := by
  refine ⟨rfl, rfl, ?_, ?_⟩
  · intro id
    rw [paginationUpdate]
    rw [List.map_append, List.mem_append]
    constructor
    · rintro (h | h)
      · exact Or.inl h
      · rw [List.mem_map] at h
        obtain ⟨v, hv, hid⟩ := h
        rw [List.mem_filter] at hv
        exact Or.inr (hid ▸ List.mem_map_of_mem _ hv.1)
    · rintro (h | h)
      · exact Or.inl h
      · by_cases hidprev : id ∈ prev.map (·.id)
        · exact Or.inl hidprev
        · right
          rw [List.mem_map] at h
          obtain ⟨v, hv, hid⟩ := h
          rw [List.mem_map]
          refine ⟨v, ?_, hid⟩
          rw [List.mem_filter]
          refine ⟨hv, ?_⟩
          rw [Bool.not_eq_true']
          cases hcb : (prev.map (·.id)).contains v.id
          · rfl
          · exact absurd (hid ▸ List.elem_iff.mp hcb) hidprev
  · rw [paginationUpdate, List.map_append]
    refine List.Nodup.append hprev ?_ ?_
    · exact List.Nodup.sublist (List.Sublist.map _ (List.filter_sublist page)) hpage
    · intro a ha hb
      rw [List.mem_map] at hb
      obtain ⟨v, hv, hid⟩ := hb
      rw [List.mem_filter] at hv
      obtain ⟨_, hpred⟩ := hv
      rw [Bool.not_eq_true'] at hpred
      have : (prev.map (·.id)).contains v.id = true := List.elem_iff.mpr (hid ▸ ha)
      rw [hpred] at this
      cases this

/-- Witness for `fallback_pagination`: a concrete accumulated list and next
page overlapping on one id. -/
theorem fallback_pagination_witness :
    (loadVideos 30 0 none (Except.error ()) =
      { videos := [], usePagination := true, isLoading := false }) ∧
    (paginationUpdate [⟨"a", "A"⟩] none [⟨"a", "A"⟩, ⟨"b", "B"⟩] = [⟨"a", "A"⟩, ⟨"b", "B"⟩]) ∧
    (∀ id, id ∈ (paginationUpdate [⟨"a", "A"⟩] (some "c") [⟨"a", "A"⟩, ⟨"b", "B"⟩]).map (·.id) ↔
      id ∈ ([⟨"a", "A"⟩] : List Video).map (·.id) ∨
        id ∈ ([⟨"a", "A"⟩, ⟨"b", "B"⟩] : List Video).map (·.id)) ∧
    ((paginationUpdate [⟨"a", "A"⟩] (some "c") [⟨"a", "A"⟩, ⟨"b", "B"⟩]).map (·.id)).Nodup :=
  fallback_pagination 30 0 [⟨"a", "A"⟩] [⟨"a", "A"⟩, ⟨"b", "B"⟩] "c" (by decide) (by decide)

/-- C9 counterexample: the partition keys `some "all"` and `none` are
distinct, yet they alias the same storage key, so writing the `some "all"`
partition changes the `none` ("all videos") partition's cache entry —
refuting the claim for this concrete pair. -/
theorem partition_alias_cex :
    (some "all" ≠ (none : Option String)) ∧
    getVideoCache (fun _ => none) none = none ∧
    getVideoCache (setVideoCache (fun _ => none) [⟨"b", "B"⟩] (some "all") 2) none ≠
      none := by
  refine ⟨by decide, rfl, by decide⟩

/-- C9 (amended): for any two partition keys whose storage keys differ —
`p1 ≠ p2` is not quite enough, because `none`, `some ""` and `some "all"`
alias one storage key — writing the video cache for `p1` leaves `p2`'s
entry, records and `fetchedAt` alike, unchanged. -/
theorem partition_write_isolated (store : String → Option VideoCache)
    (videos : List Video) (p1 p2 : Option String) (now : Int)
    (h : getCacheKey p1 ≠ getCacheKey p2) :
    getVideoCache (setVideoCache store videos p1 now) p2 = getVideoCache store p2 := by
  show (if getCacheKey p2 = getCacheKey p1 then _ else store (getCacheKey p2)) =
    store (getCacheKey p2)
  rw [if_neg (fun hc => h hc.symm)]

/-- Witness for `partition_write_isolated`: writing playlist `"x"` leaves the
all-videos partition untouched. -/
theorem partition_write_isolated_witness :
    getVideoCache (setVideoCache (fun _ => none) [⟨"b", "B"⟩] (some "x") 2) none =
      getVideoCache (fun _ => none) none :=
  partition_write_isolated (fun _ => none) [⟨"b", "B"⟩] (some "x") none 2 (by decide)

/-- Witness for `default_duration_thirty` with an absent preference and a
concrete clock. -/
theorem default_duration_thirty_witness :
    getCacheDuration (Except.ok none) = some 30 ∧
    (isCacheStale 30 600000 0 = true ↔
      CACHE_FRESH_THRESHOLD_MS ≤ (600000 : Int) - 0 ∧
        (600000 : Int) - 0 < (30 : Int) * 60 * 1000) ∧
    (isCacheExpired 30 600000 0 = true ↔ (30 : Int) * 60 * 1000 ≤ (600000 : Int) - 0) ∧
    isCacheStale 30 (5 * 60 * 1000) 0 = true ∧
    isCacheStale 0 (5 * 60 * 1000) 0 = false :=
  default_duration_thirty (Except.ok none) (Or.inl rfl) 600000 0

end Tella
